import Mathlib

/-!
Verification of the ssl_sync addon (`src/main/main.py`) against its
natural-language specification.

The Python program fetches a TLS private key and certificate over SFTP,
optionally repackages them as a PKCS12 (PFX) container, and distributes the
bytes to a list of local or remote destinations.  The definitions below are a
shallow embedding of that program: pure helpers become Lean functions on
strings and lists; the SFTP server state is an explicit value (a directory
listing, a content map, a set of existing remote directories); library calls
that can raise (paramiko connect, cryptography parsing, file writes) are
modelled by explicit outcome flags, and the side effects of `main` are
recorded as an event trace.

Byte strings are modelled as `List Nat`.  Python string operations map to
character-list functions defined below (`lower` to `lowerStr`, ASCII case
folding; `strip` to `stripStr`; `endswith` to `endsWithStr`; slicing by
characters to `dropRightStr`), so that every definition reduces inside the
kernel on concrete inputs.
-/

/-- Python `s.lower()` on the character list of a string (ASCII case
folding, which covers every name the program compares). -/
def lowerStr (s : String) : String :=
  ⟨s.data.map Char.toLower⟩

/-- Python `s.endswith(t)` as a suffix test on character lists. -/
def endsWithStr (s t : String) : Bool :=
  List.isSuffixOf t.data s.data

/-- Python `s[:-n]`: drop the last `n` characters. -/
def dropRightStr (s : String) (n : Nat) : String :=
  ⟨s.data.take (s.data.length - n)⟩

/-- Python `s.strip()`: remove leading and trailing whitespace. -/
def stripStr (s : String) : String :=
  ⟨((s.data.dropWhile Char.isWhitespace).reverse.dropWhile Char.isWhitespace).reverse⟩

/-- One entry of `sftp.listdir_attr`: a filename plus the directory bit of
its `st_mode` (`stat.S_ISDIR`). -/
structure DirEntry where
  filename : String
  isDir : Bool
deriving DecidableEq, Repr

/-- The `available_files` set computed in `fetch_ssl_files`
(`src/main/main.py:76`): filenames of the listing entries that are not
directories.  Python builds a set; membership is all that is ever used, so a
list with exact-string membership is a faithful model. -/
def availableFiles (entries : List DirEntry) : List String :=
  (entries.filter (fun e => !e.isDir)).map DirEntry.filename

/-- Embedding of `resolve_remote_filename` (`src/main/main.py:49-63`).
An absent match is `none` (the Python `None`). -/
def resolve_remote_filename (available_files : List String) (target_name : String) :
    Option String :=
  if target_name = "" then none
  else
    let variants :=
      if endsWithStr (lowerStr target_name) ".pem" then
        [target_name, dropRightStr target_name 4]
      else
        [target_name, target_name ++ ".pem"]
    variants.find? (fun variant => available_files.contains variant)

/-- The candidate-then-first-match resolver exactly as §4.2 of the spec words
it, with no guard on the desired name; used to compare the spec text with
`resolve_remote_filename`. -/
def resolveSpec (available : List String) (desired : String) : Option String :=
  let candidates :=
    if endsWithStr (lowerStr desired) ".pem" then
      [desired, dropRightStr desired 4]
    else
      [desired, desired ++ ".pem"]
  candidates.find? (fun candidate => available.contains candidate)

/-- Failure value of `fetch_ssl_files`: which of the two logical names did
not resolve (the function prints the message and returns `None`). -/
inductive FetchError where
  | privkeyNotFound (name : String)
  | certNotFound (name : String)
deriving DecidableEq, Repr

/-- The dictionary returned by `fetch_ssl_files` on success
(`src/main/main.py:94-99`). -/
structure SSLFiles where
  privkey_name : String
  cert_name : String
  privkey_bytes : List Nat
  cert_bytes : List Nat
deriving DecidableEq, Repr

/-- Embedding of `fetch_ssl_files` (`src/main/main.py:73-99`).  The remote
directory is given by its listing `entries` and a content map `contents`
(what `read_remote_file` returns for each resolved filename). -/
def fetch_ssl_files (entries : List DirEntry) (contents : String → List Nat)
    (privkey_name cert_name : String) : Except FetchError SSLFiles :=
  let available_files := availableFiles entries
  let privkey_filename := resolve_remote_filename available_files privkey_name
  let cert_filename := resolve_remote_filename available_files cert_name
  match privkey_filename with
  | none => .error (.privkeyNotFound privkey_name)
  | some pk =>
    match cert_filename with
    | none => .error (.certNotFound cert_name)
    | some c =>
      .ok { privkey_name := pk, cert_name := c,
            privkey_bytes := contents pk, cert_bytes := contents c }

/-- Encryption argument handed to `pkcs12.serialize_key_and_certificates`:
either `serialization.BestAvailableEncryption(passphrase)` or
`serialization.NoEncryption()`. -/
inductive EncryptionAlg where
  | bestAvailable (passphrase : String)
  | noEncryption
deriving DecidableEq, Repr

/-- The serialization request assembled by `build_pfx_bytes`
(`src/main/main.py:102-118`).  The cryptography library calls themselves are
external; the structure records exactly what the code passes to them:
`keyPassword` is the `password=` argument of `load_pem_private_key`, `name`
is the friendly-name bytes (UTF-8 encoding kept as the string itself), `cas`
is the certificate-chain argument. -/
structure Pkcs12Request where
  name : Option String
  keyBytes : List Nat
  keyPassword : Option String
  certBytes : List Nat
  cas : Option Unit
  encryption_algorithm : EncryptionAlg
deriving DecidableEq, Repr

/-- Embedding of `build_pfx_bytes` (`src/main/main.py:102-118`). -/
def build_pfx_bytes (privkey_bytes cert_bytes : List Nat)
    (password friendly_name : String) : Pkcs12Request :=
  { name := if friendly_name = "" then none else some friendly_name
    keyBytes := privkey_bytes
    keyPassword := none
    certBytes := cert_bytes
    cas := none
    encryption_algorithm :=
      if password = "" then .noEncryption else .bestAvailable password }

/-- One destination entry of the `copy` configuration list, with the fields
`main` reads.  A missing key is `none`; the empty string is a present but
falsy value (Python `or` treats both alike). -/
structure CopyCfg where
  sslName : Option String
  hostAddress : Option String
  hostPort : Option Nat
  path : Option String
  convertToPfx : Bool
  sslPassword : Option String
deriving DecidableEq, Repr

/-- Python truthiness of the `host_port` value: `not host_port` is true for
a missing port and for port `0`. -/
def truthyPort : Option Nat → Bool
  | none => false
  | some p => p != 0

/-- Embedding of `is_local_target` (`src/main/main.py:149-152`). -/
def is_local_target (copy_cfg : CopyCfg) : Bool :=
  let host_address := lowerStr (stripStr (copy_cfg.hostAddress.getD ""))
  (host_address == "" || host_address == "example.com") || !truthyPort copy_cfg.hostPort

/-- The locality predicate exactly as the claim words it: the raw host
address is empty or equals `example.com` in any letter case, or the port is
falsy; no whitespace stripping. -/
def isLocalClaim (copy_cfg : CopyCfg) : Bool :=
  let a := copy_cfg.hostAddress.getD ""
  (a == "" || lowerStr a == "example.com") || !truthyPort copy_cfg.hostPort

/-- The locality predicate as amended: the host address is first stripped of
surrounding whitespace and lowercased, then compared. -/
def isLocalAmended (copy_cfg : CopyCfg) : Bool :=
  let a := lowerStr (stripStr (copy_cfg.hostAddress.getD ""))
  (a == "" || a == "example.com") || !truthyPort copy_cfg.hostPort

/-- The effective logical SSL name of a destination:
`copy_cfg.get("ssl_name") or "certificate"` (`src/main/main.py:207`). -/
def effectiveSslName (copy_cfg : CopyCfg) : String :=
  match copy_cfg.sslName with
  | none => "certificate"
  | some s => if s = "" then "certificate" else s

/-- The `.pfx` suffix rule applied to a name (`src/main/main.py:208-211`). -/
def pfxSuffixed (ssl_name : String) : String :=
  if endsWithStr (lowerStr ssl_name) ".pfx" then ssl_name else ssl_name ++ ".pfx"

/-- The PFX output filename `main` computes for a destination. -/
def pfxFilename (copy_cfg : CopyCfg) : String :=
  pfxSuffixed (effectiveSslName copy_cfg)

/-- Python `remote_dir.split("/")` by structural recursion on the character
list (an accumulator holds the current piece, reversed). -/
def splitSlash : List Char → List Char → List String
  | [], acc => [⟨acc.reverse⟩]
  | c :: cs, acc =>
    if c = '/' then ⟨acc.reverse⟩ :: splitSlash cs [] else splitSlash cs (c :: acc)

/-- The `parts` list of `ensure_remote_dir` (`src/main/main.py:125`): split
on `/` and drop empty pieces. -/
def remoteDirParts (remote_dir : String) : List String :=
  (splitSlash remote_dir.data []).filter (fun p => p ≠ "")

/-- The cumulative paths visited by `ensure_remote_dir`
(`src/main/main.py:127-128`): starting from `current`, each part extends it
with a slash.  The Python special case for an empty `current` produces the
same `/part`, since the code concatenates an empty string in front. -/
def cumulPaths (current : String) : List String → List String
  | [] => []
  | part :: parts =>
    let cur := current ++ "/" ++ part
    cur :: cumulPaths cur parts

/-- The remote filesystem as seen by `ensure_remote_dir`: the set of paths
for which `sftp.stat` succeeds.  `sftp.mkdir` on an existing path raises
(modelled as `Except.error` carrying the path); on a fresh path it creates
it. -/
def sftpMkdir (fs : Finset String) (p : String) : Except String (Finset String) :=
  if p ∈ fs then .error p else .ok (insert p fs)

/-- The per-component loop of `ensure_remote_dir` (`src/main/main.py:127-132`):
stat the cumulative path; when stat fails (path absent), mkdir it. -/
def ensureGo (fs : Finset String) : List String → Except String (Finset String)
  | [] => .ok fs
  | p :: ps =>
    if p ∈ fs then ensureGo fs ps
    else
      match sftpMkdir fs p with
      | .error e => .error e
      | .ok fs2 => ensureGo fs2 ps

/-- Embedding of `ensure_remote_dir` (`src/main/main.py:121-132`): returns
the resulting filesystem, or the path of a failed mkdir. -/
def ensure_remote_dir (fs : Finset String) (remote_dir : String) :
    Except String (Finset String) :=
  if remote_dir = "" then .ok fs
  else ensureGo fs (cumulPaths "" (remoteDirParts remote_dir))

/-- Events recorded while `main` (`src/main/main.py:155-286`) runs: opening
and closing the source session, reaching a destination in the loop
(`attempt` stands for the status prints at `src/main/main.py:197-201`),
reporting a destination connect failure, opening and closing a destination
session, and writing a payload file locally or remotely. -/
inductive Event where
  | openSrc
  | closeSrc
  | attempt (i : Nat)
  | connectFailReported (i : Nat)
  | openDest (i : Nat)
  | closeDest (i : Nat)
  | wroteLocal (i : Nat) (filename : String)
  | wroteRemote (i : Nat) (filename : String)
deriving DecidableEq, Repr

/-- The environment `main` runs against.  `srcConnectOk` is whether
`connect_sftp` succeeds for the source host; `entries` and `contents`
describe the source directory; `privkeyName`, `certName` and `copies` come
from the configuration (with defaults already applied by `config.get`);
`destConnectOk i`, `destBuildOk i` and `destWriteOk i` state whether the
destination-`i` connect, the `build_pfx_bytes` library calls, and the
file writes succeed (an exception otherwise). -/
structure MainWorld where
  srcConnectOk : Bool
  entries : List DirEntry
  contents : String → List Nat
  privkeyName : String
  certName : String
  copies : List CopyCfg
  destConnectOk : Nat → Bool
  destBuildOk : Nat → Bool
  destWriteOk : Nat → Bool

/-- One iteration of the destination loop (`src/main/main.py:196-278`) for
destination number `i` (1-based, as in `enumerate(copy_configs, 1)`).
Returns the events of the iteration and whether an uncaught exception
aborted the loop: a failed PFX build or a failed write raises (there is no
handler inside the loop), while a failed destination connect prints a
message and continues.  A remote destination session opened inside the
iteration is closed by the `finally` on both the success and the
write-failure path. -/
def processDest (w : MainWorld) (ssl : SSLFiles) (i : Nat) (cfg : CopyCfg) :
    List Event × Bool :=
  if cfg.convertToPfx then
    if !w.destBuildOk i then ([.attempt i], true)
    else if is_local_target cfg then
      if w.destWriteOk i then ([.attempt i, .wroteLocal i (pfxFilename cfg)], false)
      else ([.attempt i], true)
    else if !w.destConnectOk i then ([.attempt i, .connectFailReported i], false)
    else if w.destWriteOk i then
      ([.attempt i, .openDest i, .wroteRemote i (pfxFilename cfg), .closeDest i], false)
    else ([.attempt i, .openDest i, .closeDest i], true)
  else
    if is_local_target cfg then
      if w.destWriteOk i then
        ([.attempt i, .wroteLocal i ssl.privkey_name, .wroteLocal i ssl.cert_name], false)
      else ([.attempt i], true)
    else if !w.destConnectOk i then ([.attempt i, .connectFailReported i], false)
    else if w.destWriteOk i then
      ([.attempt i, .openDest i, .wroteRemote i ssl.privkey_name,
        .wroteRemote i ssl.cert_name, .closeDest i], false)
    else ([.attempt i, .openDest i, .closeDest i], true)

/-- The destination loop: iterations run in order until one raises, in
which case the exception propagates and later destinations never run. -/
def runDests (w : MainWorld) (ssl : SSLFiles) : Nat → List CopyCfg → List Event
  | _, [] => []
  | i, cfg :: rest =>
    match processDest w ssl i cfg with
    | (es, true) => es
    | (es, false) => es ++ runDests w ssl (i + 1) rest

/-- The event trace of one `main` run (`src/main/main.py:155-286`).  When
the source connect fails, `main` returns before opening anything.  After a
successful connect the body runs inside `try`, and the `finally` closes the
source session on every path: after a fetch failure (early `return`), after
normal completion, and while an uncaught destination exception propagates. -/
def mainTrace (w : MainWorld) : List Event :=
  if !w.srcConnectOk then []
  else
    let body :=
      match fetch_ssl_files w.entries w.contents w.privkeyName w.certName with
      | .error _ => []
      | .ok ssl => runDests w ssl 1 w.copies
    .openSrc :: (body ++ [.closeSrc])

/-- Occurrence count of an event in a trace. -/
def countE (e : Event) : List Event → Nat
  | [] => 0
  | x :: xs => (if x = e then 1 else 0) + countE e xs

/-- A run in which the source works, destination 1 wants a PFX but the
cryptography calls in `build_pfx_bytes` raise (malformed key material), and
destination 2 is a plain local copy that would succeed. -/
def buildFailWorld : MainWorld :=
  { srcConnectOk := true
    entries := [⟨"privkey.pem", false⟩, ⟨"cert.pem", false⟩]
    contents := fun _ => [48]
    privkeyName := "privkey.pem"
    certName := "cert.pem"
    copies := [{ sslName := some "mycert"
                 hostAddress := some ""
                 hostPort := none
                 path := some "/ssl"
                 convertToPfx := true
                 sslPassword := some "secret" },
               { sslName := none
                 hostAddress := none
                 hostPort := none
                 path := some "/backup"
                 convertToPfx := false
                 sslPassword := none }]
    destConnectOk := fun _ => true
    destBuildOk := fun i => i != 1
    destWriteOk := fun _ => true }

example : resolve_remote_filename ["privkey.pem", "cert.pem"] "privkey" =
    some "privkey.pem" := by decide
example : resolve_remote_filename ["privkey", "cert.pem"] "privkey.pem" =
    some "privkey" := by decide
example : resolve_remote_filename ["privkey.pem"] "" = none := by decide
example : is_local_target
    { sslName := none, hostAddress := some "EXAMPLE.com", hostPort := some 22,
      path := none, convertToPfx := false, sslPassword := none } = true := by decide
example : pfxFilename
    { sslName := some "myCert.PFX", hostAddress := none, hostPort := none,
      path := none, convertToPfx := true, sslPassword := none } = "myCert.PFX" := by
  decide

/-- Counting distributes over trace concatenation. -/
theorem countE_append (e : Event) (l1 l2 : List Event) :
    countE e (l1 ++ l2) = countE e l1 + countE e l2 := by
  induction l1 with
  | nil => simp [countE]
  | cons x xs ih => simp [countE, ih, Nat.add_assoc]

/-- C9: an empty (falsy) desired name makes the resolver return NotFound at
once, whatever the available set contains. -/
theorem resolve_remote_filename_empty_name (available : List String) :
    resolve_remote_filename available "" = none := rfl

/-- C2 counterexample: the empty desired name does not end in `.pem`, so
the claim's candidate list is `["", ".pem"]`; with available set
`[".pem"]` the second candidate is present and the claim predicts it is
returned, but the resolver's falsy-name guard returns NotFound without
consulting the set. -/
theorem resolve_empty_name_counterexample :
    List.contains [".pem"] ("" ++ ".pem") = true ∧
    resolve_remote_filename [".pem"] "" ≠ some ".pem" ∧
    resolve_remote_filename [".pem"] "" = none := by decide

/-- C2 (amended): for every non-empty desired name the resolver returns
exactly the first candidate, in the fixed order of `resolveSpec`, that is
in the available set (an empty desired name returns NotFound immediately). -/
theorem resolve_remote_filename_amended (available : List String)
    (desired : String) (h : desired ≠ "") :
    resolve_remote_filename available desired = resolveSpec available desired := by
  unfold resolve_remote_filename resolveSpec
  rw [if_neg h]

/-- Witness for `resolve_remote_filename_amended` at a concrete input. -/
theorem resolve_remote_filename_amended_witness :
    resolve_remote_filename ["privkey.pem"] "privkey" =
      resolveSpec ["privkey.pem"] "privkey" ∧
    resolve_remote_filename ["privkey.pem"] "privkey" = some "privkey.pem" :=
  ⟨resolve_remote_filename_amended ["privkey.pem"] "privkey" (by decide), by decide⟩

/-- C3 counterexample: a host address with trailing whitespace and a real
port.  The claim's predicate (no stripping) says remote; the code strips
the whitespace and calls it local. -/
theorem is_local_target_counterexample :
    is_local_target { sslName := none
                      hostAddress := some "example.com "
                      hostPort := some 443
                      path := none
                      convertToPfx := false
                      sslPassword := none } = true ∧
    isLocalClaim { sslName := none
                   hostAddress := some "example.com "
                   hostPort := some 443
                   path := none
                   convertToPfx := false
                   sslPassword := none } = false := by decide

/-- C3 (amended): `is_local_target` is true iff the host address, stripped
of surrounding whitespace and lowercased, is empty or `example.com`, or the
host port is falsy or absent. -/
theorem is_local_target_amended (cfg : CopyCfg) :
    is_local_target cfg = true ↔
      (lowerStr (stripStr (cfg.hostAddress.getD "")) = "" ∨
       lowerStr (stripStr (cfg.hostAddress.getD "")) = "example.com" ∨
       truthyPort cfg.hostPort = false) := by
  simp [is_local_target, Bool.or_eq_true, Bool.not_eq_true', or_assoc]

/-- C4: when either logical name fails to resolve, the whole fetch fails
with an error naming the unresolved file (the private key is checked
first), and no success value is returned. -/
theorem fetch_ssl_files_fails_whole (entries : List DirEntry)
    (contents : String → List Nat) (privkey_name cert_name : String)
    (h : resolve_remote_filename (availableFiles entries) privkey_name = none ∨
         resolve_remote_filename (availableFiles entries) cert_name = none) :
    fetch_ssl_files entries contents privkey_name cert_name =
      .error (if resolve_remote_filename (availableFiles entries) privkey_name = none
              then FetchError.privkeyNotFound privkey_name
              else FetchError.certNotFound cert_name) ∧
    ∀ r, fetch_ssl_files entries contents privkey_name cert_name ≠ .ok r := by
  have hmain : fetch_ssl_files entries contents privkey_name cert_name =
      .error (if resolve_remote_filename (availableFiles entries) privkey_name = none
              then FetchError.privkeyNotFound privkey_name
              else FetchError.certNotFound cert_name) := by
    cases hpk : resolve_remote_filename (availableFiles entries) privkey_name with
    | none => simp [fetch_ssl_files, hpk]
    | some pk =>
      rcases h with h | h
      · exact absurd h (by simp [hpk])
      · simp [fetch_ssl_files, hpk, h]
  exact ⟨hmain, fun r => by rw [hmain]; exact fun hc => Except.noConfusion hc⟩

/-- Witness for `fetch_ssl_files_fails_whole`: a directory holding only the
certificate, so the private key does not resolve. -/
theorem fetch_ssl_files_fails_whole_witness :
    fetch_ssl_files [⟨"cert.pem", false⟩] (fun _ => []) "privkey.pem" "cert.pem" =
      .error (FetchError.privkeyNotFound "privkey.pem") ∧
    (resolve_remote_filename (availableFiles [⟨"cert.pem", false⟩]) "privkey.pem" = none) := by
  have h := fetch_ssl_files_fails_whole [⟨"cert.pem", false⟩] (fun _ => [])
    "privkey.pem" "cert.pem" (Or.inl (by decide))
  exact ⟨by simpa using h.1, by decide⟩

/-- C5 counterexample: the empty logical SSL name does not end in `.pfx`,
so the claim predicts the filename `".pfx"`, but the code first defaults
the falsy name to `certificate` and produces `certificate.pfx`. -/
theorem pfxFilename_counterexample :
    endsWithStr (lowerStr "") ".pfx" = false ∧
    pfxFilename { sslName := some ""
                  hostAddress := none
                  hostPort := none
                  path := none
                  convertToPfx := true
                  sslPassword := none } = "certificate.pfx" ∧
    pfxFilename { sslName := some ""
                  hostAddress := none
                  hostPort := none
                  path := none
                  convertToPfx := true
                  sslPassword := none } ≠ ".pfx" := by decide

/-- C5 (amended): for every destination whose logical SSL name is present
and non-empty, the PFX output filename is that name with `.pfx` appended,
except that nothing is appended when the name already ends with `.pfx`
case-insensitively (a missing or empty name first defaults to
`certificate`). -/
theorem pfxFilename_amended (cfg : CopyCfg) (s : String)
    (h1 : cfg.sslName = some s) (h2 : s ≠ "") :
    pfxFilename cfg =
      (if endsWithStr (lowerStr s) ".pfx" then s else s ++ ".pfx") := by
  unfold pfxFilename pfxSuffixed effectiveSslName
  rw [h1]
  simp [h2]

/-- Witness for `pfxFilename_amended` at a concrete destination. -/
theorem pfxFilename_amended_witness :
    pfxFilename { sslName := some "mycert"
                  hostAddress := none
                  hostPort := none
                  path := none
                  convertToPfx := true
                  sslPassword := some "secret" } =
      (if endsWithStr (lowerStr "mycert") ".pfx" then "mycert" else "mycert" ++ ".pfx") ∧
    pfxFilename { sslName := some "mycert"
                  hostAddress := none
                  hostPort := none
                  path := none
                  convertToPfx := true
                  sslPassword := some "secret" } = "mycert.pfx" :=
  ⟨pfxFilename_amended _ "mycert" rfl (by decide), by decide⟩

/-- C6: the private key is loaded with `password=None` (unencrypted PEM),
and the encryption argument is `BestAvailableEncryption(password)` for a
non-empty password and `NoEncryption()` for an empty one. -/
theorem build_pfx_bytes_encryption_policy (privkey_bytes cert_bytes : List Nat)
    (password friendly_name : String) :
    (build_pfx_bytes privkey_bytes cert_bytes password friendly_name).keyPassword = none ∧
    (build_pfx_bytes privkey_bytes cert_bytes password friendly_name).encryption_algorithm =
      (if password = "" then EncryptionAlg.noEncryption
       else EncryptionAlg.bestAvailable password) :=
  ⟨rfl, rfl⟩

/-- The component loop always succeeds, grows the filesystem, and ends with
every visited path present: a missing component is created, an existing one
is tolerated via the stat check. -/
theorem ensureGo_ok (ps : List String) : ∀ fs : Finset String,
    ∃ fs2, ensureGo fs ps = .ok fs2 ∧ fs ⊆ fs2 ∧ ∀ p ∈ ps, p ∈ fs2 := by
  induction ps with
  | nil =>
    intro fs
    exact ⟨fs, rfl, Finset.Subset.refl fs, by simp⟩
  | cons p ps ih =>
    intro fs
    by_cases hp : p ∈ fs
    · obtain ⟨fs2, h1, h2, h3⟩ := ih fs
      refine ⟨fs2, by simp [ensureGo, hp, h1], h2, ?_⟩
      intro q hq
      rcases List.mem_cons.mp hq with hq | hq
      · exact hq ▸ h2 hp
      · exact h3 q hq
    · obtain ⟨fs2, h1, h2, h3⟩ := ih (insert p fs)
      refine ⟨fs2, by simp [ensureGo, hp, sftpMkdir, h1],
        (Finset.subset_insert p fs).trans h2, ?_⟩
      intro q hq
      rcases List.mem_cons.mp hq with hq | hq
      · exact hq ▸ h2 (Finset.mem_insert_self p fs)
      · exact h3 q hq

/-- When every component already exists, the loop is a no-op. -/
theorem ensureGo_fixed (ps : List String) : ∀ fs : Finset String,
    (∀ p ∈ ps, p ∈ fs) → ensureGo fs ps = .ok fs := by
  induction ps with
  | nil => intro fs _; rfl
  | cons p ps ih =>
    intro fs h
    have hp : p ∈ fs := h p (List.mem_cons_self p ps)
    simp only [ensureGo, hp, if_true]
    exact ih fs (fun q hq => h q (List.mem_cons_of_mem p hq))

/-- C7: `ensure_remote_dir` is idempotent: for every remote filesystem and
directory path the first run succeeds, and a second run over the resulting
filesystem succeeds and leaves it unchanged (each component is stat-checked
before `mkdir`, so an existing component is treated as success). -/
theorem ensure_remote_dir_idempotent (fs : Finset String) (remote_dir : String) :
    ∃ fs2, ensure_remote_dir fs remote_dir = .ok fs2 ∧
           ensure_remote_dir fs2 remote_dir = .ok fs2 := by
  by_cases h : remote_dir = ""
  · exact ⟨fs, by simp [ensure_remote_dir, h], by simp [ensure_remote_dir, h]⟩
  · obtain ⟨fs2, h1, _, h3⟩ := ensureGo_ok (cumulPaths "" (remoteDirParts remote_dir)) fs
    exact ⟨fs2, by simp [ensure_remote_dir, h, h1],
      by simp [ensure_remote_dir, h, ensureGo_fixed _ fs2 h3]⟩

/-- A destination iteration never touches the source session. -/
theorem processDest_src (w : MainWorld) (ssl : SSLFiles) (i : Nat) (cfg : CopyCfg) :
    countE .openSrc (processDest w ssl i cfg).1 = 0 ∧
    countE .closeSrc (processDest w ssl i cfg).1 = 0 := by
  unfold processDest
  refine ⟨?_, ?_⟩ <;> (repeat' split) <;> simp [countE]

/-- A destination iteration records no session events for another
destination index. -/
theorem processDest_dest_ne (w : MainWorld) (ssl : SSLFiles) (i : Nat)
    (cfg : CopyCfg) {j : Nat} (h : j ≠ i) :
    countE (.openDest j) (processDest w ssl i cfg).1 = 0 ∧
    countE (.closeDest j) (processDest w ssl i cfg).1 = 0 := by
  unfold processDest
  refine ⟨?_, ?_⟩ <;> (repeat' split) <;> simp [countE, Ne.symm h]

/-- Within one iteration the destination session open and close counts
agree and the session is opened at most once, on every branch (success,
build failure, connect failure, write failure). -/
theorem processDest_dest_self (w : MainWorld) (ssl : SSLFiles) (i : Nat)
    (cfg : CopyCfg) :
    countE (.openDest i) (processDest w ssl i cfg).1 =
      countE (.closeDest i) (processDest w ssl i cfg).1 ∧
    countE (.openDest i) (processDest w ssl i cfg).1 ≤ 1 := by
  unfold processDest
  refine ⟨?_, ?_⟩ <;> (repeat' split) <;> simp [countE]

/-- The destination loop never touches the source session. -/
theorem runDests_src (w : MainWorld) (ssl : SSLFiles) :
    ∀ (cfgs : List CopyCfg) (start : Nat),
    countE .openSrc (runDests w ssl start cfgs) = 0 ∧
    countE .closeSrc (runDests w ssl start cfgs) = 0 := by
  intro cfgs
  induction cfgs with
  | nil => intro start; simp [runDests, countE]
  | cons cfg rest ih =>
    intro start
    have hp := processDest_src w ssl start cfg
    rcases hpd : processDest w ssl start cfg with ⟨es, ab⟩
    rw [hpd] at hp
    cases ab
    · simp [runDests, hpd, countE_append, hp.1, hp.2, (ih (start + 1)).1,
        (ih (start + 1)).2]
    · simp [runDests, hpd, hp.1, hp.2]

/-- Iterations only record events for indices at or above the loop
counter. -/
theorem runDests_lt (w : MainWorld) (ssl : SSLFiles) :
    ∀ (cfgs : List CopyCfg) (start j : Nat), j < start →
    countE (.openDest j) (runDests w ssl start cfgs) = 0 ∧
    countE (.closeDest j) (runDests w ssl start cfgs) = 0 := by
  intro cfgs
  induction cfgs with
  | nil => intro start j _; simp [runDests, countE]
  | cons cfg rest ih =>
    intro start j h
    have hp := processDest_dest_ne w ssl start cfg (Nat.ne_of_lt h)
    rcases hpd : processDest w ssl start cfg with ⟨es, ab⟩
    rw [hpd] at hp
    have ht := ih (start + 1) j (Nat.lt_succ_of_lt h)
    cases ab
    · simp [runDests, hpd, countE_append, hp.1, hp.2, ht.1, ht.2]
    · simp [runDests, hpd, hp.1, hp.2]

/-- In the whole loop, every destination index has matching open and close
counts, with at most one open. -/
theorem runDests_dest (w : MainWorld) (ssl : SSLFiles) :
    ∀ (cfgs : List CopyCfg) (start j : Nat),
    countE (.openDest j) (runDests w ssl start cfgs) =
      countE (.closeDest j) (runDests w ssl start cfgs) ∧
    countE (.openDest j) (runDests w ssl start cfgs) ≤ 1 := by
  intro cfgs
  induction cfgs with
  | nil => intro start j; simp [runDests, countE]
  | cons cfg rest ih =>
    intro start j
    rcases hpd : processDest w ssl start cfg with ⟨es, ab⟩
    by_cases hj : j = start
    · subst hj
      have hp := processDest_dest_self w ssl j cfg
      rw [hpd] at hp
      have ht := runDests_lt w ssl rest (j + 1) j (Nat.lt_succ_self j)
      cases ab
      · simpa [runDests, hpd, countE_append, ht.1, ht.2] using hp
      · simpa [runDests, hpd] using hp
    · have hp := processDest_dest_ne w ssl start cfg hj
      rw [hpd] at hp
      have ht := ih (start + 1) j
      cases ab
      · simpa [runDests, hpd, countE_append, hp.1, hp.2] using ht
      · simp [runDests, hpd, hp.1, hp.2]

/-- C8: in every run of `main` the source session is opened at most once
and closed exactly as many times as it is opened (including runs aborted by
a fetch failure or by an uncaught destination exception), and every
destination session is opened at most once and closed exactly as many times
as it is opened, whether that destination succeeds, fails to connect, or
fails while writing. -/
theorem sessions_closed_exactly_once (w : MainWorld) (i : Nat) :
    countE .openSrc (mainTrace w) = countE .closeSrc (mainTrace w) ∧
    countE .openSrc (mainTrace w) ≤ 1 ∧
    countE (.openDest i) (mainTrace w) = countE (.closeDest i) (mainTrace w) ∧
    countE (.openDest i) (mainTrace w) ≤ 1 := by
  cases hs : w.srcConnectOk
  · simp [mainTrace, hs, countE]
  · rcases hf : fetch_ssl_files w.entries w.contents w.privkeyName w.certName with e | ssl
    · simp [mainTrace, hs, hf, countE, countE_append]
    · have h1 := runDests_src w ssl w.copies 1
      have h2 := runDests_dest w ssl w.copies 1 i
      simp [mainTrace, hs, hf, countE, countE_append, h1.1, h1.2]
      exact ⟨h2.1, h2.2⟩

/-- C1 (failing input): in `buildFailWorld` the PFX build of destination 1
raises; the exception is not caught inside the destination loop, so the run
aborts (the source session still being closed by the outer `finally`) and
destination 2 is never attempted, although the claim requires it to be. -/
theorem build_failure_aborts_remaining_destinations :
    mainTrace buildFailWorld = [Event.openSrc, Event.attempt 1, Event.closeSrc] ∧
    Event.attempt 2 ∉ mainTrace buildFailWorld := by decide

/-- C10: a missing or empty `ssl_name` defaults to `certificate`: the PFX
output filename is `certificate.pfx` and the friendly name handed to the
PKCS12 serialization is `certificate`; more generally the distributor never
passes an empty friendly name, so `build_pfx_bytes` never maps it to a
missing archive name. -/
theorem default_ssl_name_certificate (cfg : CopyCfg) (pk cb : List Nat)
    (pw : String) :
    ((cfg.sslName = none ∨ cfg.sslName = some "") →
      pfxFilename cfg = "certificate.pfx" ∧
      effectiveSslName cfg = "certificate" ∧
      (build_pfx_bytes pk cb pw (effectiveSslName cfg)).name = some "certificate") ∧
    effectiveSslName cfg ≠ "" := by
  have hname : (cfg.sslName = none ∨ cfg.sslName = some "") →
      effectiveSslName cfg = "certificate" := by
    rintro (h | h) <;> simp [effectiveSslName, h]
  constructor
  · intro h
    have he := hname h
    refine ⟨?_, he, ?_⟩
    · unfold pfxFilename
      rw [he]
      decide
    · rw [he]
      simp [build_pfx_bytes]
  · cases hsn : cfg.sslName with
    | none => simp [effectiveSslName, hsn]
    | some s =>
      by_cases hs : s = "" <;> simp [effectiveSslName, hsn, hs]

/-- Witness for `default_ssl_name_certificate` at a destination with no
`ssl_name` key. -/
theorem default_ssl_name_certificate_witness :
    pfxFilename { sslName := none
                  hostAddress := none
                  hostPort := none
                  path := none
                  convertToPfx := true
                  sslPassword := none } = "certificate.pfx" ∧
    (build_pfx_bytes [] [] "" (effectiveSslName { sslName := none
                                                  hostAddress := none
                                                  hostPort := none
                                                  path := none
                                                  convertToPfx := true
                                                  sslPassword := none })).name =
      some "certificate" := by
  have h := default_ssl_name_certificate
    { sslName := none
      hostAddress := none
      hostPort := none
      path := none
      convertToPfx := true
      sslPassword := none } [] [] ""
  exact ⟨(h.1 (Or.inl rfl)).1, (h.1 (Or.inl rfl)).2.2⟩
